import Mathlib

/-!
# Traffic light: message queue and phase driver

A shallow embedding of `src/TrafficLight.cpp`.

* `MessageQueue.send` / `MessageQueue.receive` are the two member functions of
  the channel.  Each one runs entirely under the mutex of the channel, so each is
  one atomic transition on the buffer `_queue`.
* `TrafficLight.cycleIteration` is one pass through the body of the endless
  loop of `cycleThroughPhases`; `waitForGreen` is the loop of the waiter.
* `Channel` adds to the buffer one thread that calls `receive`, which a `send`
  wakes up.
* `System` interleaves the loop thread with one thread calling `waitForGreen`,
  one source statement at a time.
-/

namespace TrafficSim

/-! ## Data model -/

/-- Modelled from the spec: the enumeration `TrafficLightPhase` is declared in
`TrafficLight.h`, which is not among the sources; the spec gives its two values,
red and green. -/
inductive TrafficLightPhase where
  | red
  | green
  deriving DecidableEq

/-- Modelled from the spec: the class `MessageQueue<T>` is declared in
`TrafficLight.h`, which is not among the sources.  Its member `_queue` is used by
`send` and `receive` as a double-ended queue (`clear`, `push_back`, `front`,
`pop_front`, `empty`); the head of the list is the front.  The members `_mutex`
and `_cond` carry no data: they make each member function one atomic step. -/
structure MessageQueue (T : Type) where
  _queue : List T
  deriving DecidableEq

namespace MessageQueue

variable {T : Type}

/-- The queue of a newly constructed channel: nothing buffered. -/
def empty : MessageQueue T := ⟨[]⟩

/-- The call `_queue.clear()`: every buffered element is dropped. -/
def clear (_q : MessageQueue T) : MessageQueue T :=
  ⟨[]⟩

/-- The call `_queue.push_back(msg)`: `msg` goes to the back. -/
def push_back (q : MessageQueue T) (msg : T) : MessageQueue T :=
  ⟨q._queue ++ [msg]⟩

/-- The member function `MessageQueue<T>::send` (lines 22-32): under the lock,
`_queue.clear()` and then `_queue.push_back(msg)`.  The `notify_one` that follows
changes no data of the buffer; its effect on a suspended thread is
`Channel.notify_one`. -/
def send (q : MessageQueue T) (msg : T) : MessageQueue T :=
  q.clear.push_back msg

/-- The member function `MessageQueue<T>::receive` (lines 8-20), as one attempt
under the lock.  The
wait predicate is `!_queue.empty()`: while it is false the caller stays suspended
in `_cond.wait`, nothing is returned and the buffer is untouched (`none` and the
same queue).  When it is true the front is moved out, `pop_front` removes it and
it is returned. -/
def receive (q : MessageQueue T) : Option T × MessageQueue T :=
  match q._queue with
  | [] => (none, q)
  | msg :: rest => (some msg, ⟨rest⟩)

/-- Performs `send(v1)`, ..., `send(vn)` in this order with nothing in between. -/
def sendAll (q : MessageQueue T) (vs : List T) : MessageQueue T :=
  vs.foldl send q

/-- One operation of a client of the channel. -/
inductive Op (T : Type) where
  | send (v : T)
  | receive
  deriving DecidableEq

/-- Runs an interleaving of channel operations, each atomic under the lock, and
collects the values the receives returned, in the order they returned them.  A
`receive` attempted on an empty buffer does not complete: it returns nothing and
the buffer stays as it is. -/
def runOps : List (Op T) → MessageQueue T → List T × MessageQueue T
  | [], q => ([], q)
  | Op.send v :: ops, q => runOps ops (q.send v)
  | Op.receive :: ops, q =>
    match q.receive with
    | (none, q1) => runOps ops q1
    | (some msg, q1) => let r := runOps ops q1; (msg :: r.1, r.2)

/-- The values passed to `send`, in the order of the calls. -/
def sentValues : List (Op T) → List T
  | [] => []
  | Op.send v :: ops => v :: sentValues ops
  | Op.receive :: ops => sentValues ops

end MessageQueue

/-- Modelled from the spec: the class `TrafficLight` is declared in
`TrafficLight.h`, which is not among the sources.  The member functions use the
current phase `_currentPhase` and the owned channel `_messageQueue`. -/
structure TrafficLight where
  _currentPhase : TrafficLightPhase
  _messageQueue : MessageQueue TrafficLightPhase
  deriving DecidableEq

namespace TrafficLight

/-- The constructor `TrafficLight::TrafficLight()` (lines 37-41): a fresh channel, phase green. -/
def new : TrafficLight :=
  { _messageQueue := MessageQueue.empty
    _currentPhase := TrafficLightPhase.green }

/-- The member function `TrafficLight::getCurrentPhase` (lines 62-65). -/
def getCurrentPhase (tl : TrafficLight) : TrafficLightPhase :=
  tl._currentPhase

/-- Line 107: `_currentPhase = (_currentPhase == red ? green : red)`. -/
def changeColor (tl : TrafficLight) : TrafficLight :=
  { tl with
    _currentPhase :=
      if tl._currentPhase = TrafficLightPhase.red then TrafficLightPhase.green
      else TrafficLightPhase.red }

/-- Line 111: the text streamed to `std::cout` before `std::endl`, computed from
the phase the light has after the flip. -/
def notification (tl : TrafficLight) : String :=
  "a traffic ligt toggeled from "
    ++ (if tl._currentPhase = TrafficLightPhase.red then "green " else "red ")
    ++ "to "
    ++ (if tl._currentPhase = TrafficLightPhase.red then "red " else "green ")

/-- Line 114: `_messageQueue->send(std::move(getCurrentPhase()))`. -/
def publish (tl : TrafficLight) : TrafficLight :=
  { tl with _messageQueue := tl._messageQueue.send tl.getCurrentPhase }

end TrafficLight

/-- The state the loop thread of `cycleThroughPhases` acts on: the light, and the
lines written so far to the console (`std::cout`), oldest first. -/
structure World where
  light : TrafficLight
  cout : List String
  deriving DecidableEq

namespace World

/-- A newly constructed light and a console with nothing written to it. -/
def init : World :=
  { light := TrafficLight.new, cout := [] }

/-- Lines 110-112: one statement streams the notification followed by `std::endl`,
that is one more line on the console. -/
def printNotification (w : World) : World :=
  { w with cout := w.cout ++ [w.light.notification] }

/-- The part of the loop body of `cycleThroughPhases` after the wait for the cycle
time (lines 106-114): flip the phase, print the notification, publish the phase.
This is one toggle. -/
def cycleIteration (w : World) : World :=
  let w1 : World := { w with light := w.light.changeColor }
  let w2 : World := w1.printNotification
  { w2 with light := w2.light.publish }

/-- The state after `n` toggles of the endless loop of `cycleThroughPhases`. -/
def cycleThroughPhases : Nat → World → World
  | 0, w => w
  | n + 1, w => cycleIteration (cycleThroughPhases n w)

end World

/-! ## The wait for the cycle time (lines 81-105) -/

/-- The class template `std::uniform_int_distribution<>` of the C++ standard
library, constructed with the bounds `(a, b)` and called with an engine.  The
library is not part of the sources, so an object of this class is a parameter:
`draw` is whatever `operator()` computes from the state of the engine (it may
consume any number of raw outputs) together with the state it leaves the engine
in, and `in_range` is the one thing the standard promises about the result,
`a <= i <= b`. -/
structure uniform_int_distribution (Engine : Type) (a b : Int) where
  draw : Engine → Int × Engine
  in_range : ∀ gen : Engine, a ≤ (draw gen).1 ∧ (draw gen).1 ≤ b

/-- Line 84: `static std::uniform_int_distribution<> distrib(4000,6000)`, the type
of the object `distrib`. -/
abbrev Distrib (Engine : Type) : Type :=
  uniform_int_distribution Engine 4000 6000

/-- One object of type `Distrib`, over an engine whose state is a counter and whose
raw output is the counter reduced to 32 bits: the raw output is scaled into the
range by multiply and shift.  It serves to run the loop on concrete inputs;
nothing is proved from its particular mapping. -/
def sampleDistrib : Distrib Nat where
  draw gen := (4000 + (((gen % 4294967296) * 2001 / 4294967296 : Nat) : Int), gen + 1)
  in_range gen := by
    have h : gen % 4294967296 < 4294967296 := Nat.mod_lt gen (by decide)
    have h2 : (gen % 4294967296) * 2001 / 4294967296 < 2001 :=
      Nat.div_lt_of_lt_mul (by omega)
    constructor <;> simp only <;> omega

/-- The value of a signed 64-bit integer expression: the mathematical value `x`
reduced into `[-2^63, 2^63)` by wrapping around. -/
def wrap64 (x : Int) : Int :=
  (x + 9223372036854775808) % 18446744073709551616 - 9223372036854775808

/-- Line 99: `duration_cast<milliseconds>(now - lastUpdate).count()`.  Clock
readings are tick counts of `system_clock`, signed 64-bit integers, `ticksPerMs`
ticks to a millisecond; the difference is computed in 64 bits and wraps around,
the cast divides by `ticksPerMs` and truncates toward zero, and the count is
stored in a `long` of 64 bits. -/
def timeSinceLastUpdate (ticksPerMs : Int) (now lastUpdate : Int) : Int :=
  Int.tdiv (wrap64 (now - lastUpdate)) ticksPerMs

/-- The inner loop of lines 95-105.  `clock k` is what the `k`-th call of
`system_clock::now()` of this cycle returns (call 0 is the one that sets
`lastUpdate`).  The result is the index of the reading at which the loop breaks;
`none` when it has not broken within `fuel` polls. -/
def waitForCycleTime (ticksPerMs : Int) (clock : Nat → Int) (lastUpdate cycleDuration : Int) :
    Nat → Nat → Option Nat
  | 0, _ => none
  | fuel + 1, k =>
    if timeSinceLastUpdate ticksPerMs (clock k) lastUpdate ≥ cycleDuration then some k
    else waitForCycleTime ticksPerMs clock lastUpdate cycleDuration fuel (k + 1)

/-- What one pass through the loop body has drawn and measured when it flips the
phase, the state it leaves the engine in, and the state after the toggle. -/
structure Toggle (Engine : Type) where
  cycleDuration : Int
  measured : Int
  gen : Engine
  world : World
  deriving DecidableEq

/-- One pass through the body of the endless loop (lines 91-114): draw the cycle
duration from `distrib(gen)`, note the start of the cycle, poll until the
measured time has reached the duration, then toggle.  `none` when the wait has
not ended within `fuel` polls: the phase has not been flipped. -/
def timedCycle {Engine : Type} (distrib : Distrib Engine) (ticksPerMs : Int) (clock : Nat → Int)
    (fuel : Nat) (gen : Engine) (w : World) : Option (Toggle Engine) :=
  match waitForCycleTime ticksPerMs clock (clock 0) (distrib.draw gen).1 fuel 1 with
  | none => none
  | some k =>
    some { cycleDuration := (distrib.draw gen).1
           measured := timeSinceLastUpdate ticksPerMs (clock k) (clock 0)
           gen := (distrib.draw gen).2
           world := w.cycleIteration }

/-! ## waitForGreen (lines 47-60) -/

/-- The test of line 55 on the value `receive()` returned: `true` means
`waitForGreen` returns, `false` means the value is dropped and the loop goes on. -/
def isGreen (msg : TrafficLightPhase) : Bool :=
  msg == TrafficLightPhase.green

/-- The member function `TrafficLight::waitForGreen`, run against the values that its successive calls
of `receive()` return: `recv k` is what call number `k` (counted from 0) returns.
The second argument counts the loop passes allowed, the third the receives done
so far.  The result is the number of receives performed when the function
returns; `none` when it has not returned within the allowed passes. -/
def waitForGreen (recv : Nat → TrafficLightPhase) : Nat → Nat → Option Nat
  | 0, _ => none
  | fuel + 1, done =>
    if isGreen (recv done) then some (done + 1)
    else waitForGreen recv fuel (done + 1)

/-! ## The loop thread and a waiter, interleaved -/

/-- Where the loop thread of `cycleThroughPhases` stands. -/
inductive LoopPc where
  | waiting
  | flipped
  | printed
  deriving DecidableEq

/-- Where the thread that calls `waitForGreen` stands. -/
inductive WaiterPc where
  | idle
  | receiving
  | received (msg : TrafficLightPhase)
  | returned
  deriving DecidableEq

/-- The light with its console, the loop thread and one waiter. -/
structure System where
  world : World
  loopPc : LoopPc
  waiter : WaiterPc
  deriving DecidableEq

/-- The statements the scheduler can let run next. -/
inductive Action where
  | loopFlip
  | loopPrint
  | loopSend
  | waiterCall
  | waiterReceive
  | waiterCheck
  deriving DecidableEq

namespace System

/-- A newly constructed light whose loop has been started (it is in its first
wait for the cycle time) and a thread that has not called `waitForGreen` yet. -/
def init : System :=
  { world := World.init, loopPc := LoopPc.waiting, waiter := WaiterPc.idle }

/-- Lets one thread run its next statement.  An action that is not the next
statement of its thread changes nothing, and so does a `receive` on an empty
buffer (the waiter stays suspended).
* `loopFlip`: the wait for the cycle time ends and line 107 runs;
* `loopPrint`: lines 110-112;
* `loopSend`: line 114, then the loop is in its next wait;
* `waiterCall`: the thread enters `waitForGreen`;
* `waiterReceive`: `receive()` of line 55 completes;
* `waiterCheck`: the comparison of line 55, and the `return` of line 57. -/
def step (a : Action) (s : System) : System :=
  match a, s.loopPc, s.waiter with
  | Action.loopFlip, LoopPc.waiting, _ =>
    { s with world := { s.world with light := s.world.light.changeColor }
             loopPc := LoopPc.flipped }
  | Action.loopPrint, LoopPc.flipped, _ =>
    { s with world := s.world.printNotification, loopPc := LoopPc.printed }
  | Action.loopSend, LoopPc.printed, _ =>
    { s with world := { s.world with light := s.world.light.publish }
             loopPc := LoopPc.waiting }
  | Action.waiterCall, _, WaiterPc.idle =>
    { s with waiter := WaiterPc.receiving }
  | Action.waiterReceive, _, WaiterPc.receiving =>
    match s.world.light._messageQueue.receive with
    | (none, _) => s
    | (some msg, q) =>
      { s with world := { s.world with light := { s.world.light with _messageQueue := q } }
               waiter := WaiterPc.received msg }
  | Action.waiterCheck, _, WaiterPc.received msg =>
    { s with waiter := if isGreen msg then WaiterPc.returned else WaiterPc.receiving }
  | _, _, _ => s

/-- Runs a schedule, first action first. -/
def run (sched : List Action) (s : System) : System :=
  sched.foldl (fun st a => step a st) s

/-- The three statements of one toggle, run back to back. -/
def toggle : List Action :=
  [Action.loopFlip, Action.loopPrint, Action.loopSend]

end System

/-! ## A thread inside receive -/

/-- Where a thread that calls `receive()` stands.  `suspended` is inside
`_cond.wait` with the lock released; `notified` is woken up and about to take the
lock again and test the predicate of line 16; `returned msg` is after line 19. -/
inductive ReceiverPc (T : Type) where
  | idle
  | suspended
  | notified
  | returned (msg : T)
  deriving DecidableEq

/-- The buffer of a channel together with one thread that calls `receive()`. -/
structure Channel (T : Type) where
  queue : MessageQueue T
  receiver : ReceiverPc T
  deriving DecidableEq

/-- What can happen next to a channel: the thread calls `receive()`, some thread
runs `send(v)`, the woken receiver gets to run, or the suspended receiver wakes
up without a notification (which `std::condition_variable` allows). -/
inductive ChannelEvent (T : Type) where
  | call
  | send (v : T)
  | resume
  | spurious
  deriving DecidableEq

namespace Channel

variable {T : Type}

/-- A new channel and a thread that has not called `receive()` yet. -/
def init : Channel T :=
  { queue := MessageQueue.empty, receiver := ReceiverPc.idle }

/-- Line 31, `_cond.notify_one()`: a thread suspended in `_cond.wait` is woken up;
any other thread is not affected. -/
def notify_one : ReceiverPc T → ReceiverPc T
  | ReceiverPc.suspended => ReceiverPc.notified
  | pc => pc

/-- Lines 16-19 run by a thread that holds the lock: `_cond.wait(uLock, pred)`
tests the predicate; when it is false the thread is suspended and the buffer is as
before, when it is true the front is popped and returned. -/
def testAndTake (c : Channel T) : Channel T :=
  match c.queue.receive with
  | (none, q) => { queue := q, receiver := ReceiverPc.suspended }
  | (some msg, q) => { queue := q, receiver := ReceiverPc.returned msg }

/-- One event on the channel.  An event that is not possible in the state (a
call by a thread already inside `receive()`, a resumption of a thread that is
not woken up) changes nothing. -/
def step (e : ChannelEvent T) (c : Channel T) : Channel T :=
  match e, c.receiver with
  | ChannelEvent.call, ReceiverPc.idle => c.testAndTake
  | ChannelEvent.send v, pc => { queue := c.queue.send v, receiver := notify_one pc }
  | ChannelEvent.resume, ReceiverPc.notified => c.testAndTake
  | ChannelEvent.spurious, ReceiverPc.suspended => { c with receiver := ReceiverPc.notified }
  | _, _ => c

/-- Runs a sequence of events, first event first. -/
def run (evs : List (ChannelEvent T)) (c : Channel T) : Channel T :=
  evs.foldl (fun st e => step e st) c

/-- Whether the event is a `send`. -/
def isSend : ChannelEvent T → Bool
  | ChannelEvent.send _ => true
  | _ => false

end Channel

/-! ## Vocabulary of the properties -/

/-- The phase opposite to `p`. -/
def TrafficLightPhase.other : TrafficLightPhase → TrafficLightPhase
  | TrafficLightPhase.red => TrafficLightPhase.green
  | TrafficLightPhase.green => TrafficLightPhase.red

/-- The name of a phase as the console line of the specification spells it. -/
def TrafficLightPhase.name : TrafficLightPhase → String
  | TrafficLightPhase.red => "red"
  | TrafficLightPhase.green => "green"

/-- The console line of the specification for a toggle from `previous` to `new`
(written from the words of the specification, to be compared with
`TrafficLight.notification`). -/
def specifiedLine (previous new : TrafficLightPhase) : String :=
  "a traffic light toggled from " ++ previous.name ++ " to " ++ new.name

/-- The phase a light constructed green has after `n` toggles. -/
def phaseAfter (n : Nat) : TrafficLightPhase :=
  if n % 2 = 1 then TrafficLightPhase.red else TrafficLightPhase.green

namespace System

/-- What holds in every state the system reaches from `init`.  With `n` the number
of lines on the console:
* between toggles the phase is the one after `n` toggles and the buffer holds
  nothing but the current phase;
* between the flip and the print the phase is already the one after `n + 1`
  toggles, and the buffer holds nothing but the phase before the flip;
* between the print and the send at least one line is printed, and the buffer
  still holds nothing but the phase before the flip;
* a green in the buffer, or in the hands of the waiter, was published by the
  second toggle or a later one. -/
def Inv (s : System) : Prop :=
  (match s.loopPc with
    | LoopPc.waiting =>
      s.world.light._currentPhase = phaseAfter s.world.cout.length
        ∧ ∀ v ∈ s.world.light._messageQueue._queue, v = s.world.light._currentPhase
    | LoopPc.flipped =>
      s.world.light._currentPhase = phaseAfter (s.world.cout.length + 1)
        ∧ ∀ v ∈ s.world.light._messageQueue._queue, v = s.world.light._currentPhase.other
    | LoopPc.printed =>
      s.world.light._currentPhase = phaseAfter s.world.cout.length
        ∧ 1 ≤ s.world.cout.length
        ∧ ∀ v ∈ s.world.light._messageQueue._queue, v = s.world.light._currentPhase.other)
    ∧ (∀ v ∈ s.world.light._messageQueue._queue,
        v = TrafficLightPhase.green → 2 ≤ s.world.cout.length)
    ∧ (s.waiter = WaiterPc.received TrafficLightPhase.green → 2 ≤ s.world.cout.length)
    ∧ (s.waiter = WaiterPc.returned → 2 ≤ s.world.cout.length)

end System

namespace System

/-- The scenario of a new light up to the first toggle: the thread calls
`waitForGreen` and tries to receive before any toggle, the loop toggles once, the
waiter receives what was published and tests it. -/
def firstToggleScenario : List Action :=
  [Action.waiterCall, Action.waiterReceive] ++ toggle ++ [Action.waiterReceive, Action.waiterCheck]

/-- The scenario continued through the second toggle. -/
def secondToggleScenario : List Action :=
  firstToggleScenario ++ toggle ++ [Action.waiterReceive, Action.waiterCheck]

/-- Two toggles with no waiter, then a thread calls `waitForGreen`, the loop runs
line 107 of its third toggle, and only then the receive of the waiter completes. -/
def staleGreenSchedule : List Action :=
  toggle ++ toggle ++ [Action.waiterCall, Action.loopFlip, Action.waiterReceive]

end System

/-! ## The channel -/

namespace MessageQueue

variable {T : Type}

theorem send_queue (q : MessageQueue T) (v : T) : (q.send v)._queue = [v] := rfl

theorem sendAll_append_singleton (q : MessageQueue T) (vs : List T) (v : T) :
    sendAll q (vs ++ [v]) = ⟨[v]⟩ := by
  simp [sendAll, List.foldl_append, send, clear, push_back]

theorem sendAll_of_ne_nil (q : MessageQueue T) (vs : List T) (h : vs ≠ []) :
    sendAll q vs = ⟨[vs.getLast h]⟩ := by
  obtain ⟨init, last, rfl⟩ : ∃ init last, vs = init ++ [last] :=
    ⟨vs.dropLast, vs.getLast h, (List.dropLast_append_getLast h).symm⟩
  rw [sendAll_append_singleton]
  simp

theorem runOps_queue_length (ops : List (Op T)) :
    ∀ q : MessageQueue T, q._queue.length ≤ 1 → (runOps ops q).2._queue.length ≤ 1 := by
  induction ops with
  | nil => intro q hq; simpa [runOps] using hq
  | cons op ops ih =>
    intro q hq
    cases op with
    | send v => exact ih (q.send v) (by simp [send, clear, push_back])
    | receive =>
      obtain ⟨l⟩ := q
      cases l with
      | nil => simpa [runOps, receive] using ih ⟨[]⟩ (by simp)
      | cons x xs =>
        have hxs : xs.length ≤ 1 := by
          simp only [List.length_cons] at hq
          omega
        simpa [runOps, receive] using ih ⟨xs⟩ hxs

theorem runOps_sublist (ops : List (Op T)) :
    ∀ q : MessageQueue T, List.Sublist (runOps ops q).1 (q._queue ++ sentValues ops) := by
  induction ops with
  | nil => intro q; simp [runOps]
  | cons op ops ih =>
    intro q
    cases op with
    | send v =>
      have h := ih (q.send v)
      rw [send_queue] at h
      exact h.trans (List.sublist_append_right q._queue (v :: sentValues ops))
    | receive =>
      obtain ⟨l⟩ := q
      cases l with
      | nil => simpa [runOps, receive, sentValues] using ih ⟨[]⟩
      | cons x xs =>
        have h := ih ⟨xs⟩
        simpa [runOps, receive, sentValues] using h

end MessageQueue

/-- C1 (last write wins): whatever the channel holds, after `send(v1)`, ...,
`send(vn)` with `n >= 1` and no receive in between, a receive returns `vn` and
leaves the buffer empty, and a second receive finds nothing to return. -/
theorem C1_last_write_wins {T : Type} (q : MessageQueue T) (vs : List T) (h : vs ≠ []) :
    (MessageQueue.sendAll q vs).receive = (some (vs.getLast h), MessageQueue.empty)
      ∧ ((MessageQueue.sendAll q vs).receive.2).receive = (none, MessageQueue.empty) := by
  rw [MessageQueue.sendAll_of_ne_nil q vs h]
  exact ⟨rfl, rfl⟩

/-- Witness of C1: a channel that still holds 7 receives 1, 2, 3; the receive returns 3. -/
theorem C1_last_write_wins_witness :
    ([1, 2, 3] : List Nat) ≠ []
      ∧ (MessageQueue.sendAll (⟨[7]⟩ : MessageQueue Nat) [1, 2, 3]).receive
          = (some 3, MessageQueue.empty) :=
  ⟨by decide, (C1_last_write_wins (⟨[7]⟩ : MessageQueue Nat) [1, 2, 3] (by decide)).1⟩

/-- C4 (single slot): whatever the buffer held, right after `send(v)` it holds
exactly `v`; and after any interleaving of sends and receives on a channel that
starts empty the buffer holds at most one value. -/
theorem C4_single_slot {T : Type} :
    (∀ (q : MessageQueue T) (v : T), (q.send v)._queue = [v])
      ∧ ∀ ops : List (MessageQueue.Op T),
          (MessageQueue.runOps ops MessageQueue.empty).2._queue.length ≤ 1 :=
  ⟨fun _ _ => rfl, fun ops => MessageQueue.runOps_queue_length ops MessageQueue.empty (by simp [MessageQueue.empty])⟩

namespace Channel

variable {T : Type}

theorem run_cons (e : ChannelEvent T) (evs : List (ChannelEvent T)) (c : Channel T) :
    run (e :: evs) c = run evs (step e c) := rfl

theorem step_blocked (e : ChannelEvent T) (c : Channel T) (he : isSend e = false)
    (hq : c.queue = MessageQueue.empty)
    (hr : c.receiver = ReceiverPc.suspended ∨ c.receiver = ReceiverPc.notified) :
    (step e c).queue = MessageQueue.empty
      ∧ ((step e c).receiver = ReceiverPc.suspended ∨ (step e c).receiver = ReceiverPc.notified) := by
  obtain ⟨q, pc⟩ := c
  simp only at hq hr
  subst hq
  rcases hr with h | h <;> subst h <;> cases e <;>
    simp_all [step, testAndTake, isSend, MessageQueue.receive, MessageQueue.empty]

theorem run_blocked (evs : List (ChannelEvent T)) :
    ∀ c : Channel T, (∀ e ∈ evs, isSend e = false) → c.queue = MessageQueue.empty →
      (c.receiver = ReceiverPc.suspended ∨ c.receiver = ReceiverPc.notified) →
      (run evs c).queue = MessageQueue.empty
        ∧ ((run evs c).receiver = ReceiverPc.suspended
            ∨ (run evs c).receiver = ReceiverPc.notified) := by
  induction evs with
  | nil => intro c _ hq hr; exact ⟨hq, hr⟩
  | cons e evs ih =>
    intro c he hq hr
    obtain ⟨hq1, hr1⟩ := step_blocked e c (he e (List.mem_cons_self _ _)) hq hr
    rw [run_cons]
    exact ih (step e c) (fun e1 h1 => he e1 (List.mem_cons_of_mem _ h1)) hq1 hr1

theorem send_releases (c : Channel T) (v : T) (hq : c.queue = MessageQueue.empty)
    (hr : c.receiver = ReceiverPc.suspended ∨ c.receiver = ReceiverPc.notified) :
    step (ChannelEvent.send v) c = { queue := ⟨[v]⟩, receiver := ReceiverPc.notified }
      ∧ run [ChannelEvent.send v, ChannelEvent.resume] c
          = { queue := MessageQueue.empty, receiver := ReceiverPc.returned v } := by
  obtain ⟨q, pc⟩ := c
  simp only at hq hr
  subst hq
  rcases hr with h | h <;> subst h <;> exact ⟨rfl, rfl⟩

end Channel

/-- C5 (receive waits for a send): a thread that calls `receive()` on an empty
buffer is suspended without a value and the buffer is as before.  Whatever happens
next short of a send (resumptions, wake-ups without notification), the thread is
still inside `receive()`, has returned nothing and the buffer is still empty.
Once `send(v)` runs, the buffer holds `v` and the thread is woken up, and when it
runs it returns exactly `v` and the buffer is empty again. -/
theorem C5_receive_blocks_until_send {T : Type} :
    Channel.step ChannelEvent.call (Channel.init : Channel T)
        = { queue := MessageQueue.empty, receiver := ReceiverPc.suspended }
      ∧ ∀ evs : List (ChannelEvent T), (∀ e ∈ evs, Channel.isSend e = false) →
          ((Channel.run (ChannelEvent.call :: evs) Channel.init).queue = MessageQueue.empty
            ∧ ((Channel.run (ChannelEvent.call :: evs) Channel.init).receiver
                  = ReceiverPc.suspended
                ∨ (Channel.run (ChannelEvent.call :: evs) Channel.init).receiver
                  = ReceiverPc.notified))
          ∧ ∀ v : T,
              Channel.run (ChannelEvent.call :: evs ++ [ChannelEvent.send v]) Channel.init
                = { queue := ⟨[v]⟩, receiver := ReceiverPc.notified }
              ∧ Channel.run (ChannelEvent.call :: evs ++ [ChannelEvent.send v, ChannelEvent.resume])
                  Channel.init
                = { queue := MessageQueue.empty, receiver := ReceiverPc.returned v } := by
  refine ⟨rfl, fun evs he => ?_⟩
  have hb := Channel.run_blocked evs (Channel.step ChannelEvent.call (Channel.init : Channel T))
    he rfl (Or.inl rfl)
  refine ⟨hb, fun v => ?_⟩
  have hs := Channel.send_releases _ v hb.1 hb.2
  constructor
  · rw [← hs.1]
    simp [Channel.run, List.foldl_append]
  · rw [← hs.2]
    simp [Channel.run, List.foldl_append]

/-- Witness of C5: the suspended thread wakes up without notification, runs, is
suspended again and wakes up once more; then `send(5)` and its resumption make it
return 5. -/
theorem C5_receive_blocks_until_send_witness :
    (∀ e ∈ ([ChannelEvent.spurious, ChannelEvent.resume, ChannelEvent.spurious] :
          List (ChannelEvent Nat)), Channel.isSend e = false)
      ∧ Channel.run (ChannelEvent.call
            :: [ChannelEvent.spurious, ChannelEvent.resume, ChannelEvent.spurious]
            ++ [ChannelEvent.send 5, ChannelEvent.resume]) Channel.init
          = { queue := MessageQueue.empty, receiver := ReceiverPc.returned 5 } :=
  ⟨by decide,
    ((C5_receive_blocks_until_send.2
      [ChannelEvent.spurious, ChannelEvent.resume, ChannelEvent.spurious] (by decide)).2 5).2⟩

/-- C10 (no duplication, invention or reordering): for every interleaving of
sends and receives on a channel that starts empty, the values the receives
returned, in order, are a subsequence of the values sent, in order. -/
theorem C10_received_sublist_of_sent {T : Type} (ops : List (MessageQueue.Op T)) :
    List.Sublist (MessageQueue.runOps ops MessageQueue.empty).1 (MessageQueue.sentValues ops) := by
  simpa [MessageQueue.empty] using MessageQueue.runOps_sublist ops (MessageQueue.empty : MessageQueue T)

/-! ## The phase driver -/

namespace World

theorem cycleIteration_phase (w : World) :
    (cycleIteration w).light._currentPhase = w.light._currentPhase.other := by
  obtain ⟨⟨p, q⟩, out⟩ := w
  cases p <;> rfl

theorem cycleIteration_cout (w : World) :
    (cycleIteration w).cout = w.cout ++ [(cycleIteration w).light.notification] := by
  obtain ⟨⟨p, q⟩, out⟩ := w
  cases p <;> rfl

theorem cycleIteration_queue (w : World) :
    (cycleIteration w).light._messageQueue._queue = [(cycleIteration w).light._currentPhase] := by
  obtain ⟨⟨p, q⟩, out⟩ := w
  cases p <;> rfl

theorem cycleThroughPhases_init_phase (n : Nat) :
    (cycleThroughPhases n init).light._currentPhase = phaseAfter n := by
  induction n with
  | zero => rfl
  | succ n ih =>
    rw [cycleThroughPhases, cycleIteration_phase, ih]
    unfold phaseAfter
    rcases Nat.mod_two_eq_zero_or_one n with h | h
    · have h2 : (n + 1) % 2 = 1 := by omega
      simp [h, h2, TrafficLightPhase.other]
    · have h2 : (n + 1) % 2 = 0 := by omega
      simp [h, h2, TrafficLightPhase.other]

theorem cycleThroughPhases_cout_length (n : Nat) (w : World) :
    (cycleThroughPhases n w).cout.length = w.cout.length + n := by
  induction n with
  | zero => rfl
  | succ n ih =>
    rw [cycleThroughPhases, cycleIteration_cout, List.length_append, ih]
    simp [Nat.add_assoc]

end World

theorem TrafficLightPhase.other_ne (p : TrafficLightPhase) : p.other ≠ p := by
  cases p <;> decide

/-- C2 (strict alternation): a light is constructed green; after the `N`-th toggle
of the loop, `N >= 1`, the phase is red for odd `N` and green for even `N`; and
from any state two consecutive toggles never yield the same phase. -/
theorem C2_phases_alternate :
    TrafficLight.new.getCurrentPhase = TrafficLightPhase.green
      ∧ (∀ N : Nat, 1 ≤ N →
          (World.cycleThroughPhases N World.init).light.getCurrentPhase
            = if N % 2 = 1 then TrafficLightPhase.red else TrafficLightPhase.green)
      ∧ ∀ (w : World) (N : Nat),
          (World.cycleThroughPhases (N + 1) w).light.getCurrentPhase
            ≠ (World.cycleThroughPhases N w).light.getCurrentPhase := by
  refine ⟨rfl, fun N _ => World.cycleThroughPhases_init_phase N, fun w N => ?_⟩
  show (World.cycleIteration (World.cycleThroughPhases N w)).light._currentPhase
    ≠ (World.cycleThroughPhases N w).light._currentPhase
  rw [World.cycleIteration_phase]
  exact TrafficLightPhase.other_ne _

/-- Witness of C2: the third toggle of a new light yields red. -/
theorem C2_phases_alternate_witness :
    1 ≤ 3 ∧ (World.cycleThroughPhases 3 World.init).light.getCurrentPhase
      = TrafficLightPhase.red :=
  ⟨by decide, C2_phases_alternate.2.1 3 (by decide)⟩

/-! ## waitForGreen against the values it receives -/

theorem isGreen_iff (msg : TrafficLightPhase) : isGreen msg = true ↔ msg = TrafficLightPhase.green := by
  cases msg <;> simp [isGreen]

theorem waitForGreen_first_green (recv : Nat → TrafficLightPhase) :
    ∀ (j done fuel : Nat), (∀ i, i < j → recv (done + i) = TrafficLightPhase.red) →
      recv (done + j) = TrafficLightPhase.green → j + 1 ≤ fuel →
      waitForGreen recv fuel done = some (done + j + 1) := by
  intro j
  induction j with
  | zero =>
    intro done fuel _ hg hf
    obtain ⟨f, rfl⟩ : ∃ f, fuel = f + 1 := ⟨fuel - 1, by omega⟩
    have hg0 : recv done = TrafficLightPhase.green := by simpa using hg
    simp [waitForGreen, isGreen, hg0]
  | succ j ih =>
    intro done fuel hr hg hf
    obtain ⟨f, rfl⟩ : ∃ f, fuel = f + 1 := ⟨fuel - 1, by omega⟩
    have h0 : recv done = TrafficLightPhase.red := by simpa using hr 0 (by omega)
    have hrest : ∀ i, i < j → recv (done + 1 + i) = TrafficLightPhase.red := by
      intro i hi
      have := hr (i + 1) (by omega)
      rwa [show done + (i + 1) = done + 1 + i by omega] at this
    have hg1 : recv (done + 1 + j) = TrafficLightPhase.green := by
      rwa [show done + (j + 1) = done + 1 + j by omega] at hg
    have := ih (done + 1) f hrest hg1 (by omega)
    simp [waitForGreen, isGreen, h0, this]
    omega

theorem waitForGreen_still_waiting (recv : Nat → TrafficLightPhase) :
    ∀ (fuel done : Nat), (∀ i, i < fuel → recv (done + i) = TrafficLightPhase.red) →
      waitForGreen recv fuel done = none := by
  intro fuel
  induction fuel with
  | zero => intro done _; rfl
  | succ f ih =>
    intro done hr
    have h0 : recv done = TrafficLightPhase.red := by simpa using hr 0 (by omega)
    have hrest : ∀ i, i < f → recv (done + 1 + i) = TrafficLightPhase.red := by
      intro i hi
      have := hr (i + 1) (by omega)
      rwa [show done + (i + 1) = done + 1 + i by omega] at this
    simp [waitForGreen, isGreen, h0, ih (done + 1) hrest]

/-- C3 (return on the first green): let `recv` be the values successive receives
yield.  If the first green is the `k`-th value (`k = j + 1`, the `j` values before
it red), `waitForGreen` returns after exactly `k` receives, and has not returned
within fewer loop passes; if every value is red it never returns, however many
passes it is given. -/
theorem C3_waitForGreen_first_green (recv : Nat → TrafficLightPhase) :
    (∀ j : Nat, recv j = TrafficLightPhase.green →
        (∀ i, i < j → recv i = TrafficLightPhase.red) →
        (∀ fuel, j + 1 ≤ fuel → waitForGreen recv fuel 0 = some (j + 1))
          ∧ ∀ fuel, fuel ≤ j → waitForGreen recv fuel 0 = none)
      ∧ ((∀ i, recv i = TrafficLightPhase.red) → ∀ fuel, waitForGreen recv fuel 0 = none) := by
  refine ⟨fun j hg hr => ⟨fun fuel hf => ?_, fun fuel hf => ?_⟩, fun hr fuel => ?_⟩
  · have := waitForGreen_first_green recv j 0 fuel (by simpa using hr) (by simpa using hg) hf
    simpa using this
  · exact waitForGreen_still_waiting recv fuel 0 (fun i hi => by simpa using hr i (by omega))
  · exact waitForGreen_still_waiting recv fuel 0 (fun i _ => hr (0 + i))

/-- Witness of C3: the receives yield red, red, green and green ever after;
`waitForGreen` returns after 3 receives. -/
theorem C3_waitForGreen_first_green_witness :
    waitForGreen (fun k => if k < 2 then TrafficLightPhase.red else TrafficLightPhase.green) 5 0
      = some 3 :=
  (C3_waitForGreen_first_green
      (fun k => if k < 2 then TrafficLightPhase.red else TrafficLightPhase.green)).1 2
    (by decide) (fun i hi => by simp [hi]) |>.1 5 (by decide)

/-! ## The console line -/

theorem notification_after_flip (tl : TrafficLight) :
    tl.changeColor.notification
      = "a traffic ligt toggeled from " ++ tl._currentPhase.name ++ " to "
          ++ tl.changeColor._currentPhase.name ++ " " := by
  obtain ⟨p, q⟩ := tl
  cases p <;> rfl

theorem cycleIteration_one_line (w : World) :
    w.cycleIteration.cout = w.cout ++ [w.light.changeColor.notification] := by
  obtain ⟨⟨p, q⟩, out⟩ := w
  cases p <;> rfl

theorem notification_ne_specifiedLine (tl : TrafficLight) :
    tl.changeColor.notification ≠ specifiedLine tl._currentPhase tl.changeColor._currentPhase := by
  obtain ⟨p, q⟩ := tl
  cases p
  · show "a traffic ligt toggeled from red to green " ≠ "a traffic light toggled from red to green"
    decide
  · show "a traffic ligt toggeled from green to red " ≠ "a traffic light toggled from green to red"
    decide

/-- C8 at the first toggle of a new light: the loop writes exactly one line, and
it reads "a traffic ligt toggeled from green to red " (with a blank at the end),
which is not the line "a traffic light toggled from green to red" of the
specification. -/
theorem C8_first_toggle_line :
    World.init.cycleIteration.cout = ["a traffic ligt toggeled from green to red "]
      ∧ specifiedLine TrafficLightPhase.green TrafficLightPhase.red
          = "a traffic light toggled from green to red"
      ∧ World.init.cycleIteration.cout
          ≠ [specifiedLine TrafficLightPhase.green TrafficLightPhase.red] := by
  decide

/-! ## The cycle duration and the wait -/

theorem wrap64_of_in_range (x : Int) (h1 : -9223372036854775808 ≤ x)
    (h2 : x < 9223372036854775808) : wrap64 x = x := by
  unfold wrap64
  omega

theorem timeSinceLastUpdate_wraps :
    timeSinceLastUpdate 1000000 9223372036854775807 (-1) = -9223372036854 := by
  decide

theorem tdiv_ge_mul_le (x d c : Int) (hc : 0 < c) (hd : 0 < d) (h : d ≤ Int.tdiv x c) :
    d * c ≤ x := by
  rcases lt_or_le x 0 with hx | hx
  · have h1 : 0 ≤ Int.tdiv (-x) c := Int.tdiv_nonneg (by omega) (le_of_lt hc)
    rw [Int.neg_tdiv] at h1
    omega
  · rw [Int.tdiv_eq_ediv hx (le_of_lt hc)] at h
    exact (Int.le_ediv_iff_mul_le hc).1 h

theorem waitForCycleTime_measured (ticksPerMs : Int) (clock : Nat → Int)
    (lastUpdate cycleDuration : Int) :
    ∀ (fuel k i : Nat), waitForCycleTime ticksPerMs clock lastUpdate cycleDuration fuel k = some i →
      k ≤ i ∧ i < k + fuel
        ∧ cycleDuration ≤ timeSinceLastUpdate ticksPerMs (clock i) lastUpdate
        ∧ ∀ m, k ≤ m → m < i →
            timeSinceLastUpdate ticksPerMs (clock m) lastUpdate < cycleDuration := by
  intro fuel
  induction fuel with
  | zero => intro k i h; simp [waitForCycleTime] at h
  | succ f ih =>
    intro k i h
    unfold waitForCycleTime at h
    split at h
    · rename_i hge
      have hki : k = i := by simpa using h
      subst hki
      exact ⟨le_refl _, by omega, hge, fun m h1 h2 => absurd h2 (by omega)⟩
    · rename_i hlt
      obtain ⟨h1, h2, h3, h4⟩ := ih (k + 1) i h
      refine ⟨by omega, by omega, h3, fun m hm hmi => ?_⟩
      rcases Nat.eq_or_lt_of_le hm with heq | hgt
      · subst heq
        exact lt_of_not_ge hlt
      · exact h4 m hgt hmi

theorem waitForCycleTime_none (ticksPerMs : Int) (clock : Nat → Int)
    (lastUpdate cycleDuration : Int) :
    ∀ (fuel k : Nat),
      (∀ m, k ≤ m → m < k + fuel →
        timeSinceLastUpdate ticksPerMs (clock m) lastUpdate < cycleDuration) →
      waitForCycleTime ticksPerMs clock lastUpdate cycleDuration fuel k = none := by
  intro fuel
  induction fuel with
  | zero => intro k _; rfl
  | succ f ih =>
    intro k h
    unfold waitForCycleTime
    have h0 := h k (le_refl _) (by omega)
    rw [if_neg (not_le.mpr h0)]
    exact ih (k + 1) (fun m h1 h2 => h m (by omega) (by omega))

theorem waitForCycleTime_breaks (ticksPerMs : Int) (clock : Nat → Int)
    (lastUpdate cycleDuration : Int) :
    ∀ (fuel k m : Nat), k ≤ m → m < k + fuel →
      cycleDuration ≤ timeSinceLastUpdate ticksPerMs (clock m) lastUpdate →
      (waitForCycleTime ticksPerMs clock lastUpdate cycleDuration fuel k).isSome = true := by
  intro fuel
  induction fuel with
  | zero => intro k m h1 h2 _; omega
  | succ f ih =>
    intro k m h1 h2 h3
    unfold waitForCycleTime
    split
    · rfl
    · rename_i hlt
      rcases Nat.eq_or_lt_of_le h1 with heq | hgt
      · subst heq
        exact absurd h3 hlt
      · exact ih (k + 1) m hgt (by omega) h3

/-- C9 (cycle duration and wait): for every object the library may hand out for
`distrib(4000, 6000)`, every engine state and every sequence of clock readings,
with `d` the duration drawn in the iteration:
* `4000 <= d <= 6000`;
* when the iteration flips the phase, it does so at a poll `k` whose measured time
  since the start of the cycle, the wrapped 64-bit difference `clock k - clock 0`
  cast to milliseconds, is at least `d` and so at least 4000, while every earlier
  poll of the cycle measured less than `d`; where the difference does not wrap,
  at least `d` milliseconds of ticks lie between the two readings;
* as long as every poll has measured less than `d`, the phase is not flipped;
* and as soon as one poll measures at least `d`, the iteration does flip. -/
theorem C9_flip_after_cycle_duration {Engine : Type} (distrib : Distrib Engine) (gen : Engine)
    (ticksPerMs : Int) (clock : Nat → Int) (fuel : Nat) (w : World) :
    (4000 ≤ (distrib.draw gen).1 ∧ (distrib.draw gen).1 ≤ 6000)
      ∧ (∀ t : Toggle Engine, timedCycle distrib ticksPerMs clock fuel gen w = some t →
          t.cycleDuration = (distrib.draw gen).1 ∧ t.world = w.cycleIteration
            ∧ ∃ k : Nat, 1 ≤ k ∧ k ≤ fuel
                ∧ t.measured = Int.tdiv (wrap64 (clock k - clock 0)) ticksPerMs
                ∧ t.cycleDuration ≤ t.measured ∧ 4000 ≤ t.measured
                ∧ (∀ m : Nat, 1 ≤ m → m < k →
                    Int.tdiv (wrap64 (clock m - clock 0)) ticksPerMs < t.cycleDuration)
                ∧ (0 < ticksPerMs → -9223372036854775808 ≤ clock k - clock 0 →
                    clock k - clock 0 < 9223372036854775808 →
                    t.cycleDuration * ticksPerMs ≤ clock k - clock 0))
      ∧ ((∀ k : Nat, 1 ≤ k → k ≤ fuel →
            Int.tdiv (wrap64 (clock k - clock 0)) ticksPerMs < (distrib.draw gen).1) →
          timedCycle distrib ticksPerMs clock fuel gen w = none)
      ∧ ((∃ k : Nat, 1 ≤ k ∧ k ≤ fuel
            ∧ (distrib.draw gen).1 ≤ Int.tdiv (wrap64 (clock k - clock 0)) ticksPerMs) →
          (timedCycle distrib ticksPerMs clock fuel gen w).isSome = true) := by
  have hb := distrib.in_range gen
  refine ⟨hb, fun t h => ?_, fun h => ?_, fun h => ?_⟩
  · simp only [timedCycle] at h
    split at h
    · simp at h
    · rename_i k hk
      obtain ⟨h1, h2, h3, h4⟩ :=
        waitForCycleTime_measured ticksPerMs clock (clock 0) (distrib.draw gen).1 fuel 1 k hk
      have ht : t = { cycleDuration := (distrib.draw gen).1
                      measured := timeSinceLastUpdate ticksPerMs (clock k) (clock 0)
                      gen := (distrib.draw gen).2
                      world := w.cycleIteration } := by
        simpa using h.symm
      subst ht
      refine ⟨rfl, rfl, k, h1, by omega, rfl, h3, le_trans hb.1 h3, h4, fun hc hlo hhi => ?_⟩
      have h5 : (distrib.draw gen).1 ≤ Int.tdiv (clock k - clock 0) ticksPerMs := by
        have := h3
        unfold timeSinceLastUpdate at this
        rwa [wrap64_of_in_range _ hlo hhi] at this
      have h6 : (0 : Int) < (distrib.draw gen).1 := by omega
      exact tdiv_ge_mul_le _ _ _ hc h6 h5
  · simp only [timedCycle]
    rw [waitForCycleTime_none ticksPerMs clock (clock 0) (distrib.draw gen).1 fuel 1
      (fun m h1 h2 => h m h1 (by omega))]
  · obtain ⟨k, h1, h2, h3⟩ := h
    have := waitForCycleTime_breaks ticksPerMs clock (clock 0) (distrib.draw gen).1 fuel 1 k h1
      (by omega) h3
    simp only [timedCycle]
    split
    · rename_i hn
      rw [hn] at this
      exact absurd this (by decide)
    · rfl

/-- Witness of C9: a clock counting nanoseconds, started at 1700000000 s and read
every 2.5 s, and the sample distribution on engine state 7, which draws 4000: the
first poll measures 2500 ms, the second 5000 ms, and the iteration toggles there,
5000000000 ticks after the start of the cycle. -/
theorem C9_flip_after_cycle_duration_witness :
    timedCycle sampleDistrib 1000000
        (fun k => 1700000000000000000 + 2500000000 * (k : Int)) 5 7 World.init
        = some { cycleDuration := 4000, measured := 5000, gen := 8
                 world := World.init.cycleIteration }
      ∧ (4000 : Int) ≤ 5000 :=
  have h : timedCycle sampleDistrib 1000000
      (fun k => 1700000000000000000 + 2500000000 * (k : Int)) 5 7 World.init
      = some { cycleDuration := 4000, measured := 5000, gen := 8
               world := World.init.cycleIteration } := by
    decide
  ⟨h, by
    obtain ⟨_, _, k, _, _, _, h4, _⟩ := (C9_flip_after_cycle_duration sampleDistrib 7 1000000
      (fun k => 1700000000000000000 + 2500000000 * (k : Int)) 5 World.init).2.1 _ h
    exact h4⟩


/-! ## The loop and a waiter, interleaved -/

theorem TrafficLightPhase.other_other (p : TrafficLightPhase) : p.other.other = p := by
  cases p <;> rfl

theorem TrafficLightPhase.ite_red (p : TrafficLightPhase) :
    (if p = TrafficLightPhase.red then TrafficLightPhase.green else TrafficLightPhase.red)
      = p.other := by
  cases p <;> rfl

theorem phaseAfter_succ (n : Nat) : phaseAfter (n + 1) = (phaseAfter n).other := by
  unfold phaseAfter
  rcases Nat.mod_two_eq_zero_or_one n with h | h
  · have h2 : (n + 1) % 2 = 1 := by omega
    simp [h, h2, TrafficLightPhase.other]
  · have h2 : (n + 1) % 2 = 0 := by omega
    simp [h, h2, TrafficLightPhase.other]

theorem phaseAfter_green (n : Nat) (h : phaseAfter n = TrafficLightPhase.green) (hn : 1 ≤ n) :
    2 ≤ n := by
  unfold phaseAfter at h
  split at h
  · exact absurd h (by decide)
  · omega

namespace System

theorem inv_init : Inv init := by
  simp [Inv, init, World.init, TrafficLight.new, MessageQueue.empty, phaseAfter]

theorem inv_step (a : Action) (s : System) (h : Inv s) : Inv (step a s) := by
  obtain ⟨⟨⟨p, ⟨q⟩⟩, out⟩, pc, wt⟩ := s
  cases a <;> cases pc <;> cases wt <;>
    simp only [Inv, step, World.printNotification, TrafficLight.changeColor, TrafficLight.publish,
      TrafficLight.getCurrentPhase, MessageQueue.send, MessageQueue.clear,
      MessageQueue.push_back, MessageQueue.receive, TrafficLightPhase.ite_red, List.length_append, List.length_singleton, List.nil_append,
      List.mem_singleton] at h ⊢
  all_goals first | exact h | skip
  all_goals obtain ⟨h1, h2, h3, h4⟩ := h
  all_goals first
    | exact ⟨⟨(by rw [phaseAfter_succ, ← h1.1]),
          (by simpa [TrafficLightPhase.other_other] using h1.2)⟩, h2, h3, h4⟩
    | exact ⟨⟨h1.1, (by omega), h1.2⟩, fun v hv hg => (by have := h2 v hv hg; omega),
        fun e => (by have := h3 e; omega), fun e => (by have := h4 e; omega)⟩
    | exact ⟨⟨h1.1, fun _ hv => hv⟩,
        fun v hv hg => phaseAfter_green _ (by rw [← h1.1, ← hv, hg]) h1.2.1, h3, h4⟩
    | exact ⟨h1, h2, fun e => WaiterPc.noConfusion e, fun e => WaiterPc.noConfusion e⟩
    | (cases q with
        | nil => exact ⟨h1, h2, h3, h4⟩
        | cons x xs =>
          first
            | exact ⟨⟨h1.1, fun v hv => h1.2 v (List.mem_cons_of_mem _ hv)⟩,
                fun v hv => h2 v (List.mem_cons_of_mem _ hv),
                fun e => h2 x (List.mem_cons_self _ _) (by cases e; rfl), fun e => WaiterPc.noConfusion e⟩
            | exact ⟨⟨h1.1, h1.2.1, fun v hv => h1.2.2 v (List.mem_cons_of_mem _ hv)⟩,
                fun v hv => h2 v (List.mem_cons_of_mem _ hv),
                fun e => h2 x (List.mem_cons_self _ _) (by cases e; rfl), fun e => WaiterPc.noConfusion e⟩)
    | (rename_i msg
       cases msg
       · exact ⟨h1, h2, fun e => (by simp [isGreen] at e), fun e => (by simp [isGreen] at e)⟩
       · exact ⟨h1, h2, fun e => (by simp [isGreen] at e), fun _ => h3 rfl⟩)

end System

namespace System

theorem run_snoc (sched : List Action) (a : Action) (s : System) :
    run (sched ++ [a]) s = step a (run sched s) := by
  simp [run, List.foldl_append]

theorem inv_run (sched : List Action) : ∀ s : System, Inv s → Inv (run sched s) := by
  induction sched with
  | nil => intro s h; exact h
  | cons a rest ih => intro s h; exact ih (step a s) (inv_step a s h)

theorem returned_only_by_check (a : Action) (s : System) (h0 : s.waiter ≠ WaiterPc.returned)
    (h1 : (step a s).waiter = WaiterPc.returned) :
    a = Action.waiterCheck ∧ s.waiter = WaiterPc.received TrafficLightPhase.green := by
  obtain ⟨⟨⟨p, ⟨q⟩⟩, out⟩, pc, wt⟩ := s
  cases a <;> cases pc <;> cases wt <;> try (cases q) <;>
    simp_all [step, MessageQueue.receive, isGreen]

theorem receive_green_between_toggles (s : System) (hinv : Inv s)
    (hpc : s.loopPc = LoopPc.waiting) (hw : s.waiter = WaiterPc.receiving)
    (hr : (step Action.waiterReceive s).waiter = WaiterPc.received TrafficLightPhase.green) :
    (step Action.waiterReceive s).world.light.getCurrentPhase = TrafficLightPhase.green := by
  obtain ⟨⟨⟨p, ⟨q⟩⟩, out⟩, pc, wt⟩ := s
  simp only at hpc hw
  subst hpc hw
  cases q with
  | nil => simp [step, MessageQueue.receive] at hr
  | cons x xs =>
    have hx : x = TrafficLightPhase.green := by simpa [step, MessageQueue.receive] using hr
    have hq := hinv.1.2 x (List.mem_cons_self _ _)
    simp only at hq
    show p = TrafficLightPhase.green
    rw [← hq, hx]

end System

/-- C6 (scenario from a new light): the first value the loop publishes is red and
the second is green.  A thread that calls `waitForGreen` before any toggle finds
nothing to receive; it receives the red of the first toggle, drops it and goes on
waiting; it receives the green of the second toggle and returns, the phase being
green.  And in no interleaving at all has the waiter returned while fewer than two
toggles have been printed. -/
theorem C6_fresh_light_scenario :
    (World.cycleThroughPhases 1 World.init).light._messageQueue._queue = [TrafficLightPhase.red]
      ∧ (World.cycleThroughPhases 2 World.init).light._messageQueue._queue
          = [TrafficLightPhase.green]
      ∧ System.run [Action.waiterCall, Action.waiterReceive] System.init
          = { System.init with waiter := WaiterPc.receiving }
      ∧ (System.run System.firstToggleScenario System.init).waiter = WaiterPc.receiving
      ∧ (System.run System.firstToggleScenario System.init).world.cout.length = 1
      ∧ (System.run System.firstToggleScenario System.init).world.light.getCurrentPhase
          = TrafficLightPhase.red
      ∧ (System.run System.secondToggleScenario System.init).waiter = WaiterPc.returned
      ∧ (System.run System.secondToggleScenario System.init).world.cout.length = 2
      ∧ (System.run System.secondToggleScenario System.init).world.light.getCurrentPhase
          = TrafficLightPhase.green
      ∧ ∀ sched : List Action,
          (System.run sched System.init).waiter = WaiterPc.returned →
            2 ≤ (System.run sched System.init).world.cout.length := by
  refine ⟨by decide, by decide, by decide, by decide, by decide, by decide, by decide, by decide,
    by decide, fun sched h => ?_⟩
  exact (System.inv_run sched System.init System.inv_init).2.2.2 h

/-- Witness of C6: the scenario through the second toggle is an interleaving in
which the waiter has returned, and two toggles have been printed. -/
theorem C6_fresh_light_scenario_witness :
    (System.run System.secondToggleScenario System.init).waiter = WaiterPc.returned
      ∧ 2 ≤ (System.run System.secondToggleScenario System.init).world.cout.length :=
  ⟨by decide, C6_fresh_light_scenario.2.2.2.2.2.2.2.2.2 System.secondToggleScenario (by decide)⟩

/-- C7 as stated fails: there is an interleaving in which `waitForGreen` returns
while the current phase is red.  After two toggles the buffer holds green; the
loop flips the phase to red for its third toggle (line 107) and, before it sends
(line 114), the waiter receives the buffered green and returns. -/
theorem C7_returns_while_red :
    ¬ ∀ sched : List Action,
        (System.run sched System.init).waiter ≠ WaiterPc.returned →
        (System.run (sched ++ [Action.waiterCheck]) System.init).waiter = WaiterPc.returned →
        (System.run (sched ++ [Action.waiterCheck]) System.init).world.light.getCurrentPhase
          = TrafficLightPhase.green := by
  intro h
  have h1 := h System.staleGreenSchedule (by decide) (by decide)
  revert h1
  decide

/-- C7 amended: in every interleaving `waitForGreen` returns only by the test of
line 55 on a green that its receive took from the channel; and when the receive
that yields a green completes while the loop is between two toggles (not between
its flip of line 107 and its send of line 114), the current phase is green at
that step. -/
theorem C7_green_received_between_toggles (sched : List Action) :
    (∀ a : Action,
        (System.run sched System.init).waiter ≠ WaiterPc.returned →
        (System.run (sched ++ [a]) System.init).waiter = WaiterPc.returned →
        a = Action.waiterCheck
          ∧ (System.run sched System.init).waiter = WaiterPc.received TrafficLightPhase.green)
      ∧ ((System.run sched System.init).loopPc = LoopPc.waiting →
          (System.run sched System.init).waiter = WaiterPc.receiving →
          (System.run (sched ++ [Action.waiterReceive]) System.init).waiter
            = WaiterPc.received TrafficLightPhase.green →
          (System.run (sched ++ [Action.waiterReceive]) System.init).world.light.getCurrentPhase
            = TrafficLightPhase.green) := by
  refine ⟨fun a h0 h1 => ?_, fun hpc hw hr => ?_⟩
  · rw [System.run_snoc] at h1
    exact System.returned_only_by_check a _ h0 h1
  · rw [System.run_snoc] at hr ⊢
    exact System.receive_green_between_toggles _
      (System.inv_run sched System.init System.inv_init) hpc hw hr

/-- Witness of C7 amended: after two toggles a thread calls `waitForGreen`; the
loop is between toggles, the receive completes with green and the phase is
green. -/
theorem C7_green_received_between_toggles_witness :
    (System.run (System.toggle ++ System.toggle ++ [Action.waiterCall]) System.init).loopPc
        = LoopPc.waiting
      ∧ (System.run (System.toggle ++ System.toggle ++ [Action.waiterCall]) System.init).waiter
        = WaiterPc.receiving
      ∧ (System.run (System.toggle ++ System.toggle ++ [Action.waiterCall]
            ++ [Action.waiterReceive]) System.init).waiter
        = WaiterPc.received TrafficLightPhase.green
      ∧ (System.run (System.toggle ++ System.toggle ++ [Action.waiterCall]
            ++ [Action.waiterReceive]) System.init).world.light.getCurrentPhase
        = TrafficLightPhase.green :=
  ⟨by decide, by decide, by decide,
    (C7_green_received_between_toggles
      (System.toggle ++ System.toggle ++ [Action.waiterCall])).2 (by decide) (by decide) (by decide)⟩

end TrafficSim
